import Mathlib

/-!
Verification of the SeismicMesh mesh-generation core
(`SeismicMesh/generation/mesh_generator.py`).

Shallow embedding: numpy point arrays become lists of rational (or real)
coordinate vectors, cell connectivity becomes lists of index lists, the
module-level option dictionary becomes an explicit association list that is
threaded through the call model, and numpy boolean-mask selection becomes
`boolMask`.  External collaborators that live outside the embedded file
(the CGAL oracle, `geometry.calc_dihedral_angles`, `geometry.fix_mesh`,
`geometry.unique_edges`, numpy's RNG) are either taken as function parameters
or modelled from the specification, as marked on each definition.
-/

namespace SeismicMesh

/-- Coordinate vectors: one rational entry per spatial dimension. -/
abbrev Vec := List ℚ

/-- Elementwise vector addition (numpy `x + y` on rows). -/
def vadd (x y : Vec) : Vec := List.zipWith (fun a b => a + b) x y

/-- Elementwise vector subtraction (numpy `x - y` on rows). -/
def vsub (x y : Vec) : Vec := List.zipWith (fun a b => a - b) x y

/-- Scalar multiple of a vector. -/
def vscale (c : ℚ) (x : Vec) : Vec := x.map (fun a => c * a)

/-- Sum of a list of `dim`-dimensional vectors (numpy `arr.sum(1)` on stacked rows). -/
def vsum (dim : ℕ) (l : List Vec) : Vec := l.foldr vadd (List.replicate dim 0)

/-- numpy boolean-mask selection `a[mask]`. -/
def boolMask {α : Type} : List α → List Bool → List α
  | [], _ => []
  | _ :: _, [] => []
  | x :: xs, b :: bs => if b then x :: boolMask xs bs else boolMask xs bs

theorem boolMask_map {α : Type} (f : α → Bool) :
    ∀ l : List α, boolMask l (l.map f) = l.filter f := by
  intro l
  induction l with
  | nil => rfl
  | cons x xs ih =>
    simp only [List.map_cons, boolMask, List.filter_cons]
    by_cases h : f x = true
    · simp [h, ih]
    · simp [h, ih]

/-- Centroid of one cell: `pmid = p[t].sum(1) / (dim + 1)` with `dim = p.shape[1]`
(`_remove_triangles_outside`, mesh_generator.py lines 637-641). -/
def cell_centroid (p : List Vec) (cell : List ℕ) : Vec :=
  let dim := (p.headD []).length
  vscale (1 / (dim + 1)) (vsum dim (cell.map (fun i => p.getD i [])))

/-- Source `_remove_triangles_outside(p, t, fd, geps)`: compute each cell's centroid and
keep exactly the cells whose centroid signed distance is below `-geps`
(`return t[fd(pmid) < -geps]`). -/
def remove_triangles_outside (p : List Vec) (t : List (List ℕ)) (fd : Vec → ℚ)
    (geps : ℚ) : List (List ℕ) :=
  let pmid := t.map (fun c => cell_centroid p c)
  boolMask t (pmid.map (fun m => decide (fd m < -geps)))

theorem remove_triangles_outside_eq_filter (p : List Vec) (t : List (List ℕ))
    (fd : Vec → ℚ) (geps : ℚ) :
    remove_triangles_outside p t fd geps =
      t.filter (fun c => decide (fd (cell_centroid p c) < -geps)) := by
  show boolMask t ((t.map (fun c => cell_centroid p c)).map (fun m => decide (fd m < -geps))) =
    t.filter (fun c => decide (fd (cell_centroid p c) < -geps))
  rw [List.map_map]
  exact boolMask_map _ t

theorem mem_remove_triangles_outside (p : List Vec) (t : List (List ℕ))
    (fd : Vec → ℚ) (geps : ℚ) (c : List ℕ) :
    c ∈ remove_triangles_outside p t fd geps ↔
      c ∈ t ∧ fd (cell_centroid p c) < -geps := by
  rw [remove_triangles_outside_eq_filter]
  simp [List.mem_filter]

/-- C1: after the TRIM step, `_remove_triangles_outside` returns exactly the cells of
`t` whose centroid (the mean of the cell's vertex coordinates) has signed distance
strictly below `-geps`; every cell with centroid signed distance `≥ -geps` is dropped. -/
theorem C1_remove_triangles_outside_exact (p : List Vec) (t : List (List ℕ))
    (fd : Vec → ℚ) (geps : ℚ) (c : List ℕ) :
    c ∈ remove_triangles_outside p t fd geps ↔
      c ∈ t ∧ fd (cell_centroid p c) < -geps :=
  mem_remove_triangles_outside p t fd geps c

/-- The finite-difference offset `_deps_vec(i)`: a `dim`-vector that is `deps` in
component `i` and `0` elsewhere (`_project_points_back_newton`). -/
def deps_vec (dim i : ℕ) (deps : ℚ) : Vec :=
  (List.range dim).map (fun j => if j = i then deps else 0)

/-- One Newton projection step on a single outside point
(`_project_points_back_newton`, lines 666-685): finite-difference gradient of `fd`
with step `deps`, squared gradient norm clamped below by `deps`, then
`p -= d * dgrads / dgrad2`. -/
def newton_update (fd : Vec → ℚ) (deps : ℚ) (dim : ℕ) (x : Vec) : Vec :=
  let d := fd x
  let dgrads := (List.range dim).map (fun i => (fd (vadd x (deps_vec dim i deps)) - d) / deps)
  let dgrad2 := (dgrads.map (fun g => g ^ 2)).sum
  let dgrad2 := if dgrad2 < deps then deps else dgrad2
  vsub x (dgrads.map (fun g => d * g / dgrad2))

/-- Source `_project_points_back_newton(p, fd, deps)`: evaluate `d = fd(p)`, and when some
point lies outside (`d > 0`), apply one Newton step to exactly those points; points
with `d ≤ 0` are left in place, and when no point is outside the array is returned
unchanged. -/
def project_points_back_newton (p : List Vec) (fd : Vec → ℚ) (deps : ℚ) : List Vec :=
  let dim := (p.headD []).length
  if p.any (fun x => decide (fd x > 0)) then
    p.map (fun x => if fd x > 0 then newton_update fd deps dim x else x)
  else
    p

theorem project_points_back_newton_getElem (p : List Vec) (fd : Vec → ℚ) (deps : ℚ)
    (i : ℕ) (hi : i < p.length) :
    (project_points_back_newton p fd deps).length = p.length ∧
      ((project_points_back_newton p fd deps).getD i [] =
        if fd (p.getD i []) > 0 then
          newton_update fd deps ((p.headD []).length) (p.getD i [])
        else p.getD i []) := by
  unfold project_points_back_newton
  by_cases h : p.any (fun x => decide (fd x > 0))
  · simp only [h, if_true]
    constructor
    · exact List.length_map _ _
    · rw [List.getD_eq_getElem?_getD, List.getD_eq_getElem?_getD,
        List.getElem?_map, List.getElem?_eq_getElem hi]
      rfl
  · simp only [h, Bool.false_eq_true, if_false]
    refine ⟨trivial, ?_⟩
    have hmem : p.getD i [] ∈ p := by
      rw [List.getD_eq_getElem?_getD, List.getElem?_eq_getElem hi]
      exact List.getElem_mem hi
    have hno : ¬ fd (p.getD i []) > 0 := by
      intro hpos
      exact h (List.any_eq_true.mpr ⟨p.getD i [], hmem, by simpa using hpos⟩)
    rw [if_neg hno]

/-- C9: `_project_points_back_newton` leaves every point with `fd(p) ≤ 0` unchanged,
moves exactly the points with `fd(p) > 0` (by one Newton step with the clamped
finite-difference gradient), and returns the whole array unchanged when no point
has `fd(p) > 0`. -/
theorem C9_project_no_op_inside (p : List Vec) (fd : Vec → ℚ) (deps : ℚ) :
    (∀ i, i < p.length → fd (p.getD i []) ≤ 0 →
        (project_points_back_newton p fd deps).getD i [] = p.getD i []) ∧
      (∀ i, i < p.length → fd (p.getD i []) > 0 →
        (project_points_back_newton p fd deps).getD i [] =
          newton_update fd deps ((p.headD []).length) (p.getD i [])) ∧
      ((∀ x ∈ p, fd x ≤ 0) → project_points_back_newton p fd deps = p) := by
  refine ⟨?_, ?_, ?_⟩
  · intro i hi hle
    rw [(project_points_back_newton_getElem p fd deps i hi).2]
    exact if_neg (not_lt.mpr hle)
  · intro i hi hpos
    rw [(project_points_back_newton_getElem p fd deps i hi).2]
    exact if_pos hpos
  · intro hall
    unfold project_points_back_newton
    have h : p.any (fun x => decide (fd x > 0)) = false := by
      rw [List.any_eq_false]
      intro x hx
      simpa using not_lt.mpr (hall x hx)
    simp [h]

/-- C9 witness: the first point of a two-point array with non-positive signed
distance is left in place. -/
theorem C9_project_no_op_inside_witness :
    (project_points_back_newton [[-2, 0], [5, 1]] (fun x => x.headD 0) 1).getD 0 [] =
      ([[-2, 0], [5, 1]] : List Vec).getD 0 [] :=
  (C9_project_no_op_inside [[-2, 0], [5, 1]] (fun x => x.headD 0) 1).1 0 (by decide)
    (by decide)

/-- Values stored in the module-level option dictionary `opts`
(mesh_generator.py lines 31-42). -/
inductive OptVal where
  | int (z : ℤ)
  | float (q : ℚ)
  | bool (b : Bool)
  | pts (l : List Vec)
  | none
deriving DecidableEq

/-- The module-level dictionary `opts` with its literal defaults
(mesh_generator.py lines 31-42). -/
def opts0 : List (String × OptVal) :=
  [("verbose", OptVal.int 1), ("max_iter", OptVal.int 50), ("seed", OptVal.int 0),
   ("perform_checks", OptVal.bool false), ("pfix", OptVal.none), ("axis", OptVal.int 1),
   ("min_dh_angle_bound", OptVal.float 10), ("max_dh_angle_bound", OptVal.float 170),
   ("points", OptVal.none), ("delta_t", OptVal.float (3 / 10))]

/-- Dictionary lookup `opts[key]`. -/
def lookupOpt (opts : List (String × OptVal)) (k : String) : Option OptVal :=
  match opts.find? (fun kv => kv.1 = k) with
  | Option.some kv => Option.some kv.2
  | Option.none => Option.none

/-- One step of Python `dict.update`: overwrite an existing key in place, append a
new key at the end. -/
def updateOne (opts : List (String × OptVal)) (kv : String × OptVal) :
    List (String × OptVal) :=
  if opts.any (fun p => p.1 = kv.1) then
    opts.map (fun p => if p.1 = kv.1 then kv else p)
  else
    opts ++ [kv]

/-- Python `opts.update(kwargs)`: fold the keyword pairs into the dictionary. -/
def updateOpts (opts kwargs : List (String × OptVal)) : List (String × OptVal) :=
  kwargs.foldl updateOne opts

/-- The keyword set accepted by `_parse_kwargs` (mesh_generator.py lines 543-565). -/
def recognized_keys : List String :=
  ["verbose", "max_iter", "seed", "perform_checks", "pfix", "axis", "points",
   "domain", "edge_length", "bbox", "min_dh_angle_bound", "max_dh_angle_bound",
   "delta_t", "h0"]

/-- Source `_parse_kwargs(kwargs)`: raise `ValueError` on the first keyword outside the
recognized set, otherwise pass. -/
def parse_kwargs (kwargs : List (String × OptVal)) : Except String Unit :=
  match kwargs.find? (fun kv => !(recognized_keys.contains kv.1)) with
  | Option.some kv => Except.error ("Option " ++ kv.1 ++ " not recognized")
  | Option.none => Except.ok ()

/-- The configuration phase shared by `generate_mesh` and `sliver_removal`
(lines 117-118 and 333-334): first `opts.update(kwargs)` mutates the module-level
dictionary, then `_parse_kwargs(kwargs)` may raise.  The first component is the
call's outcome, the second the dictionary state left behind by the call. -/
def config_phase (opts kwargs : List (String × OptVal)) :
    Except String (List (String × OptVal)) × List (String × OptVal) :=
  let opts' := updateOpts opts kwargs
  match parse_kwargs kwargs with
  | Except.error e => (Except.error e, opts')
  | Except.ok _ => (Except.ok opts', opts')

theorem lookupOpt_cons (a : String × OptVal) (l : List (String × OptVal)) (k : String) :
    lookupOpt (a :: l) k = if a.1 = k then Option.some a.2 else lookupOpt l k := by
  unfold lookupOpt
  rw [List.find?_cons]
  by_cases h : a.1 = k
  · have hd : (decide (a.1 = k)) = true := by simpa using h
    rw [hd, if_pos h]
  · have hd : (decide (a.1 = k)) = false := by simpa using h
    rw [hd, if_neg h]

theorem lookupOpt_map_overwrite (k : String) (v : OptVal) :
    ∀ opts : List (String × OptVal), opts.any (fun p => p.1 = k) = true →
      lookupOpt (opts.map (fun p => if p.1 = k then (k, v) else p)) k = Option.some v := by
  intro opts
  induction opts with
  | nil => intro h; cases h
  | cons a as ih =>
    intro h
    rw [List.map_cons, lookupOpt_cons]
    by_cases ha : a.1 = k
    · rw [if_pos ha]
      simp
    · rw [if_neg ha, if_neg ha]
      apply ih
      rcases List.any_eq_true.mp h with ⟨x, hx, hxk⟩
      rcases List.mem_cons.mp hx with hx | hx
      · subst hx
        exact absurd (by simpa using hxk) ha
      · exact List.any_eq_true.mpr ⟨x, hx, hxk⟩

theorem lookupOpt_append_new (k : String) (v : OptVal) :
    ∀ opts : List (String × OptVal), opts.any (fun p => p.1 = k) = false →
      lookupOpt (opts ++ [(k, v)]) k = Option.some v := by
  intro opts
  induction opts with
  | nil =>
    intro h
    rw [List.nil_append, lookupOpt_cons]
    simp
  | cons a as ih =>
    intro h
    rw [List.cons_append, lookupOpt_cons]
    have hall := List.any_eq_false.mp h
    have ha : ¬ a.1 = k := by simpa using hall a (List.mem_cons_self a as)
    rw [if_neg ha]
    apply ih
    rw [List.any_eq_false]
    intro x hx
    exact hall x (List.mem_cons_of_mem a hx)

theorem lookupOpt_updateOne_self (opts : List (String × OptVal)) (k : String)
    (v : OptVal) : lookupOpt (updateOne opts (k, v)) k = Option.some v := by
  show lookupOpt (if (opts.any fun p => p.1 = k) = true then
      opts.map (fun p => if p.1 = k then (k, v) else p) else opts ++ [(k, v)]) k =
    Option.some v
  by_cases h : opts.any (fun p => p.1 = k) = true
  · rw [if_pos h]
    exact lookupOpt_map_overwrite k v opts h
  · rw [if_neg h]
    exact lookupOpt_append_new k v opts (Bool.eq_false_iff.mpr h)

theorem updateOpts_nil (opts : List (String × OptVal)) : updateOpts opts [] = opts := rfl

theorem updateOpts_single (opts : List (String × OptVal)) (k : String) (v : OptVal) :
    updateOpts opts [(k, v)] = updateOne opts (k, v) := rfl

/-- C4 counterexample: calling with an unrecognized keyword does raise before any
mesh computation, but the module-level dictionary has already been mutated by
`opts.update(kwargs)` — the failed call leaves `bogus` stored, so the claim that no
observable state (including the stored configuration) is modified is false. -/
theorem C4_counterexample_state_modified :
    (config_phase opts0 [("bogus", OptVal.int 0)]).1 =
        Except.error "Option bogus not recognized" ∧
      (config_phase opts0 [("bogus", OptVal.int 0)]).2 ≠ opts0 ∧
      lookupOpt (config_phase opts0 [("bogus", OptVal.int 0)]).2 "bogus" =
        Option.some (OptVal.int 0) := by
  refine ⟨rfl, ?_, rfl⟩
  intro h
  have h1 : lookupOpt (config_phase opts0 [("bogus", OptVal.int 0)]).2 "bogus" =
      Option.some (OptVal.int 0) := rfl
  rw [h] at h1
  have h2 : lookupOpt opts0 "bogus" = Option.none := rfl
  rw [h2] at h1
  cases h1

/-- C4 amended: an unrecognized configuration keyword makes `generate_mesh` and
`sliver_removal` raise `ValueError` before any mesh computation starts, but the
stored module-level configuration is modified by the failed call: `opts.update(kwargs)`
runs before `_parse_kwargs`, so every passed keyword (the unrecognized one included)
persists in the dictionary. -/
theorem C4_unrecognized_key_raises_but_mutates (opts kwargs : List (String × OptVal))
    (kv : String × OptVal) (hmem : kv ∈ kwargs) (hbad : ¬ kv.1 ∈ recognized_keys) :
    (∃ e, (config_phase opts kwargs).1 = Except.error e) ∧
      (config_phase opts kwargs).2 = updateOpts opts kwargs := by
  have hfind : (kwargs.find? (fun p => !(recognized_keys.contains p.1))).isSome := by
    rw [List.find?_isSome]
    exact ⟨kv, hmem, by simpa using hbad⟩
  obtain ⟨kv', hm⟩ := Option.isSome_iff_exists.mp hfind
  refine ⟨⟨"Option " ++ kv'.1 ++ " not recognized", ?_⟩, ?_⟩ <;>
    · simp only [config_phase, parse_kwargs]
      rw [hm]

/-- C4 witness. -/
theorem C4_witness :
    (∃ e, (config_phase opts0 [("bogus", OptVal.int 0)]).1 = Except.error e) ∧
      (config_phase opts0 [("bogus", OptVal.int 0)]).2 =
        updateOpts opts0 [("bogus", OptVal.int 0)] :=
  C4_unrecognized_key_raises_but_mutates opts0 [("bogus", OptVal.int 0)]
    ("bogus", OptVal.int 0) (by decide) (by decide)

/-- C10: the option dictionary is module-level and mutable, and each public call
updates it in place before validating; a keyword passed to one call persists and
silently becomes the effective default of every later call that omits it, so a
later call with empty kwargs sees a value that depends on the earlier call. -/
theorem C10_kwargs_persist_across_calls (k : String) (v : OptVal)
    (hne : lookupOpt opts0 k ≠ Option.some v) :
    lookupOpt (config_phase (config_phase opts0 [(k, v)]).2 []).2 k = Option.some v ∧
      lookupOpt (config_phase opts0 []).2 k = lookupOpt opts0 k ∧
      lookupOpt (config_phase opts0 []).2 k ≠ Option.some v := by
  have h1 : (config_phase opts0 [(k, v)]).2 = updateOne opts0 (k, v) := by
    simp only [config_phase]
    cases parse_kwargs [(k, v)] <;> rfl
  have h2 : ∀ o : List (String × OptVal), (config_phase o []).2 = o := by
    intro o
    rfl
  rw [h2, h1, h2]
  exact ⟨lookupOpt_updateOne_self opts0 k v, rfl, hne⟩

/-- C10 witness: `max_iter=5` passed once persists into a later call that omits it,
while a fresh process default would have been `50`. -/
theorem C10_witness :
    lookupOpt (config_phase (config_phase opts0 [("max_iter", OptVal.int 5)]).2 []).2
        "max_iter" = Option.some (OptVal.int 5) ∧
      lookupOpt (config_phase opts0 []).2 "max_iter" = lookupOpt opts0 "max_iter" ∧
      lookupOpt (config_phase opts0 []).2 "max_iter" ≠ Option.some (OptVal.int 5) :=
  C10_kwargs_persist_across_calls "max_iter" (OptVal.int 5) (by decide)

/-- Validation of `max_iter` (mesh_generator.py lines 384-386): `ValueError` is raised
iff `max_iter < 0`, although the accompanying message reads "max_iter must be > 0". -/
def max_iter_check (max_iter : ℤ) : Bool := max_iter < 0

/-- Control skeleton of the `generate_mesh` force-equilibrium loop (lines 410-474):
each round runs the body `step` and increments the counter, and the single exit test
is `count == max_iter - 1`; `fuel` bounds the number of modelled rounds, with `none`
meaning the loop has not terminated within `fuel` rounds. -/
def gen_mesh_loop {σ : Type} (step : σ → σ) (max_iter : ℤ) :
    σ → ℕ → ℕ → Option (σ × ℕ)
  | _, _, 0 => Option.none
  | s, count, fuel + 1 =>
    if (count : ℤ) = max_iter - 1 then Option.some (s, count)
    else gen_mesh_loop step max_iter (step s) (count + 1) fuel

theorem gen_mesh_loop_zero_none {σ : Type} (step : σ → σ) :
    ∀ (fuel count : ℕ) (s : σ), gen_mesh_loop step 0 s count fuel = Option.none := by
  intro fuel
  induction fuel with
  | zero => intro count s; rfl
  | succ n ih =>
    intro count s
    unfold gen_mesh_loop
    have hne : ¬ ((count : ℤ) = 0 - 1) := by omega
    rw [if_neg hne]
    exact ih (count + 1) (step s)

/-- C3: at `max_iter = 0` the `generate_mesh` validation passes (the check is
`max_iter < 0`, although its own error message demands `max_iter > 0`), yet the
loop's only stop test `count == max_iter - 1` can never fire for the non-negative
iteration counter, so the force-equilibrium loop never terminates — refuting, at
this accepted input, the claim that every accepted `max_iter` leads to termination
at `max_iter - 1`. -/
theorem C3_max_iter_zero_accepted_but_loop_never_stops :
    max_iter_check 0 = false ∧
      ∀ (σ : Type) (step : σ → σ) (s : σ) (fuel : ℕ),
        gen_mesh_loop step 0 s 0 fuel = Option.none := by
  refine ⟨rfl, ?_⟩
  intro σ step s fuel
  exact gen_mesh_loop_zero_none step fuel 0 s

/-- The rank gate at the top of `sliver_removal` (lines 111-115): every rank above 0
immediately returns the trivial pair `(True, True)`, and the warning is issued only
inside `if comm.rank == 1`.  The value records whether a warning was emitted together
with the returned pair; `none` means the gate lets the call proceed. -/
def sliver_removal_rank_gate (rank : ℕ) : Option (Bool × (Bool × Bool)) :=
  if rank > 0 then Option.some (rank == 1, (true, true)) else Option.none

/-- C7 counterexample: rank 2 is a non-coordinator rank, yet the gate returns the
trivial neutral result with the warning flag `false` — the warning fires only on
rank 1, so the claim that every rank > 0 emits a warning is false. -/
theorem C7_counterexample_rank_two_warns_nobody :
    0 < 2 ∧ sliver_removal_rank_gate 2 = Option.some (false, (true, true)) := by
  exact ⟨by decide, rfl⟩

/-- C7 amended: every non-coordinator rank (rank > 0) returns the trivial neutral
result `(True, True)` with no computation performed; the warning is emitted
exactly on rank 1. -/
theorem C7_rank_gate_trivial_result (rank : ℕ) (h : 0 < rank) :
    sliver_removal_rank_gate rank = Option.some (rank == 1, (true, true)) := by
  unfold sliver_removal_rank_gate
  rw [if_pos h]

/-- C7 witness. -/
theorem C7_rank_gate_trivial_result_witness :
    sliver_removal_rank_gate 2 = Option.some (2 == 1, (true, true)) :=
  C7_rank_gate_trivial_result 2 (by decide)

/-- Source `_unpack_pfix(dim, opts, comm)` (lines 769-785): when fixed points are requested
under more than one rank it raises; otherwise it returns the fixed-point array and
its count (`np.empty((0, dim))` becomes the empty list).  Only `generate_mesh`
(line 396) calls this helper. -/
def unpack_pfix (pfix : Option (List Vec)) (size : ℕ) : Except String (List Vec × ℕ) :=
  match pfix with
  | Option.some pf =>
    if 1 < size then Except.error "Fixed points are not yet supported in parallel."
    else Except.ok (pf, pf.length)
  | Option.none => Except.ok ([], 0)

/-- Outcome of the pre-loop phase of `sliver_removal`. -/
inductive SliverEntry where
  | trivialReturn (warned : Bool)
  | raisedError (msg : String)
  | proceed (opts : List (String × OptVal))
deriving DecidableEq

/-- The pre-loop phase of `sliver_removal` (lines 111-199) in source order: rank
gate, `opts.update(kwargs)` plus `_parse_kwargs`, verbosity selection, the 3D-only
check, the bbox tuple check, the `h0` check and the `max_iter` check, after which
the loop starts.  Domain and sizing unpacking are external adapters, summarised
here by the already-resolved `h0` and the flag `bboxIsTuple`.  No step of this
phase reads `pfix`. -/
def sliver_removal_entry (rank : ℕ) (opts kwargs : List (String × OptVal)) (dim : ℕ)
    (h0 : ℚ) (bboxIsTuple : Bool) : SliverEntry :=
  if rank > 0 then SliverEntry.trivialReturn (rank == 1)
  else
    let opts' := updateOpts opts kwargs
    match parse_kwargs kwargs with
    | Except.error e => SliverEntry.raisedError e
    | Except.ok _ =>
      match lookupOpt opts' "verbose" with
      | Option.some (OptVal.int v) =>
        if v < 0 then SliverEntry.raisedError "Unknown verbosity level"
        else if dim = 2 then
          SliverEntry.raisedError "Mesh improvement currently on works in 3D"
        else if bboxIsTuple = false then SliverEntry.raisedError "`bbox` must be a tuple"
        else if h0 < 0 then SliverEntry.raisedError "`h0` must be > 0"
        else
          match lookupOpt opts' "max_iter" with
          | Option.some (OptVal.int m) =>
            if m < 0 then SliverEntry.raisedError "`max_iter` must be > 0"
            else SliverEntry.proceed opts'
          | _ => SliverEntry.proceed opts'
      | _ => SliverEntry.raisedError "Unknown verbosity level"

/-- Truth of "this call raised a validation error". -/
def sliverEntryRaises : SliverEntry → Bool
  | SliverEntry.raisedError _ => true
  | _ => false

/-- C8 counterexample: a parallel sliver-removal call that requests fixed points
raises no validation error on any rank — the coordinator rank passes the whole
pre-loop phase with `pfix` stored and proceeds to the loop, and rank 1 returns the
trivial result; `sliver_removal` never consults `pfix`. -/
theorem C8_counterexample_pfix_parallel_not_rejected :
    sliverEntryRaises
        (sliver_removal_entry 0 opts0 [("pfix", OptVal.pts [[0, 0, 0]])] 3 1 true) =
        false ∧
      sliver_removal_entry 1 opts0 [("pfix", OptVal.pts [[0, 0, 0]])] 3 1 true =
        SliverEntry.trivialReturn true := by
  exact ⟨rfl, rfl⟩

/-- C8 amended: the parallel fixed-point rejection lives in `_unpack_pfix`, which
only `generate_mesh` calls — requesting `pfix` with more than one rank makes
`generate_mesh` raise immediately, before its loop — while `sliver_removal` never
consults `pfix`: its coordinator rank passes validation and proceeds, silently
ignoring the request. -/
theorem C8_pfix_parallel_raises_only_in_generate_mesh (pf : List Vec) (size : ℕ)
    (h : 1 < size) :
    unpack_pfix (Option.some pf) size =
        Except.error "Fixed points are not yet supported in parallel." ∧
      sliverEntryRaises
        (sliver_removal_entry 0 opts0 [("pfix", OptVal.pts pf)] 3 1 true) = false := by
  constructor
  · simp [unpack_pfix, h]
  · rfl

/-- C8 witness. -/
theorem C8_pfix_parallel_raises_only_in_generate_mesh_witness :
    unpack_pfix (Option.some [[0, 0, 0]]) 2 =
        Except.error "Fixed points are not yet supported in parallel." ∧
      sliverEntryRaises
        (sliver_removal_entry 0 opts0 [("pfix", OptVal.pts [[0, 0, 0]])] 3 1 true) =
        false :=
  C8_pfix_parallel_raises_only_in_generate_mesh [[0, 0, 0]] 2 (by decide)

/-- Minimum of a list (numpy `.min()`, defined on nonempty input). -/
def listMin : List ℚ → ℚ
  | [] => 0
  | x :: xs => xs.foldl min x

/-- Takes `n` consecutive draws from the pseudo-random stream, with numpy's global RNG
made an explicit state: `np.random.rand(n)`. -/
def drawN (rand : ℕ → ℚ × ℕ) : ℕ → ℕ → List ℚ × ℕ
  | 0, s => ([], s)
  | n + 1, s =>
    let u := rand s
    let rest := drawN rand n u.2
    (u.1 :: rest.1, rest.2)

/-- Source `_generate_initial_points`, serial path (lines 709-735), numpy's global RNG as an
explicit threaded state.  The lattice `grid` stands for the external
`mutils.create_staggered_grid`; candidates with `fd(p) ≥ geps` are discarded, `r0m`
is the minimum sizing value, `np.random.seed(opts["seed"])` overwrites the incoming
RNG state before any draw, one uniform draw per candidate is compared against
`r0m**dim / r0**dim`, and the fixed points are prepended (`np.vstack`). -/
def generate_initial_points (seedFn : ℕ → ℕ) (rand : ℕ → ℚ × ℕ) (grid : List Vec)
    (fd fh : Vec → ℚ) (geps : ℚ) (dim : ℕ) (pfix : List Vec) (seed : ℕ)
    (rngState : ℕ) : List Vec × ℕ :=
  let p := boolMask grid (grid.map (fun x => decide (fd x < geps)))
  let r0 := p.map fh
  let r0m := listMin r0
  let rngState := seedFn seed
  let draws := drawN rand p.length rngState
  let keep := List.zipWith (fun r u => decide (u < r0m ^ dim / r ^ dim)) r0 draws.1
  (pfix ++ boolMask p keep, draws.2)

/-- The serial `generate_mesh` pipeline around the RNG: sample the initial points
(the only RNG consumer) and run the force-equilibrium loop, whose per-round body
`step` is a pure function of the mesh state (retriangulation, trim, forces, move
and projection are deterministic given the oracle and the callbacks). -/
def generate_mesh_run {σ : Type} (seedFn : ℕ → ℕ) (rand : ℕ → ℚ × ℕ) (grid : List Vec)
    (fd fh : Vec → ℚ) (geps : ℚ) (dim : ℕ) (pfix : List Vec) (seed : ℕ)
    (mkState : List Vec → σ) (step : σ → σ) (max_iter : ℤ) (fuel : ℕ)
    (rngState : ℕ) : Option (σ × ℕ) :=
  let init := generate_initial_points seedFn rand grid fd fh geps dim pfix seed rngState
  gen_mesh_loop step max_iter (mkState init.1) 0 fuel

/-- C6: two runs of `generate_mesh` with identical domain, sizing field,
configuration (seed included) and rank layout produce identical output whatever
pseudo-random state each process starts from, because `np.random.seed(opts["seed"])`
overwrites the global RNG state before the initial sampling draws: both the sampled
initial point set and the whole pipeline built on it coincide across the two runs. -/
theorem C6_identical_runs_identical_output {σ : Type} (seedFn : ℕ → ℕ)
    (rand : ℕ → ℚ × ℕ) (grid : List Vec) (fd fh : Vec → ℚ) (geps : ℚ) (dim : ℕ)
    (pfix : List Vec) (seed : ℕ) (mkState : List Vec → σ) (step : σ → σ)
    (max_iter : ℤ) (fuel : ℕ) (s1 s2 : ℕ) :
    generate_initial_points seedFn rand grid fd fh geps dim pfix seed s1 =
        generate_initial_points seedFn rand grid fd fh geps dim pfix seed s2 ∧
      generate_mesh_run seedFn rand grid fd fh geps dim pfix seed mkState step
          max_iter fuel s1 =
        generate_mesh_run seedFn rand grid fd fh geps dim pfix seed mkState step
          max_iter fuel s2 := by
  exact ⟨rfl, rfl⟩

/-- Real coordinate vectors for the force computation. -/
abbrev RVec := List ℝ

/-- Elementwise real vector addition. -/
def rvadd (x y : RVec) : RVec := List.zipWith (fun a b => a + b) x y

/-- Elementwise real vector subtraction. -/
def rvsub (x y : RVec) : RVec := List.zipWith (fun a b => a - b) x y

/-- Real scalar multiple. -/
def rvscale (c : ℝ) (x : RVec) : RVec := x.map (fun a => c * a)

/-- Modelled from the spec: `geometry.unique_edges` — "edges extracted from T are
deduplicated and undirected" — canonicalise the orientation of each pair and
deduplicate the list. -/
def unique_edges (edges : List (ℕ × ℕ)) : List (ℕ × ℕ) :=
  (edges.map (fun e => if e.1 ≤ e.2 then e else (e.2, e.1))).dedup

/-- Source `_get_edges(t)` (lines 582-590): stack each cell's vertex pairs (three in 2D,
six in 3D, `dim = t.shape[1] - 1`) and deduplicate them. -/
def get_edges (t : List (List ℕ)) : List (ℕ × ℕ) :=
  let dim := (t.headD []).length - 1
  let base := t.map (fun c => (c.getD 0 0, c.getD 1 0)) ++
    t.map (fun c => (c.getD 1 0, c.getD 2 0)) ++
    t.map (fun c => (c.getD 2 0, c.getD 0 0))
  let all :=
    if dim = 3 then
      base ++ t.map (fun c => (c.getD 0 0, c.getD 3 0)) ++
        t.map (fun c => (c.getD 1 0, c.getD 3 0)) ++
        t.map (fun c => (c.getD 2 0, c.getD 3 0))
    else base
  unique_edges all

/-- Machine epsilon `np.finfo(float).eps = 2**-52`. -/
noncomputable def machineEps : ℝ := (2 : ℝ) ^ (-52 : ℤ)

/-- Euclidean bar length of one edge: `L = np.sqrt((barvec ** 2).sum(1))`. -/
noncomputable def bar_length (p : List RVec) (e : ℕ × ℕ) : ℝ :=
  Real.sqrt (((rvsub (p.getD e.1 []) (p.getD e.2 [])).map (fun a => a ^ 2)).sum)

/-- The zero-length floor `L[L == 0] = np.finfo(float).eps` (line 601). -/
noncomputable def floored_length (p : List RVec) (e : ℕ × ℕ) : ℝ :=
  if bar_length p e = 0 then machineEps else bar_length p e

/-- The sizing field at the edge midpoint: `hedges = fh(p[edges].sum(1) / 2)`. -/
noncomputable def edge_h (fh : RVec → ℝ) (p : List RVec) (e : ℕ × ℕ) : ℝ :=
  fh (rvscale (1 / 2) (rvadd (p.getD e.1 []) (p.getD e.2 [])))

/-- The global scale factor `((L ** dim).sum() / (hedges ** dim).sum()) ** (1.0 / dim)`
over all (floored) edge lengths of the topology, with `dim = p.shape[1]`. -/
noncomputable def force_scale (p : List RVec) (t : List (List ℕ)) (fh : RVec → ℝ) : ℝ :=
  let dim := (p.headD []).length
  let edges := get_edges t
  (((edges.map (fun e => floored_length p e ^ dim)).sum) /
      ((edges.map (fun e => edge_h fh p e ^ dim)).sum)) ^ ((1 : ℝ) / (dim : ℝ))

/-- The ideal bar length `L0 = hedges * L0mult * scale` (line 603). -/
noncomputable def target_length (p : List RVec) (t : List (List ℕ)) (fh : RVec → ℝ)
    (L0mult : ℝ) (e : ℕ × ℕ) : ℝ :=
  edge_h fh p e * L0mult * force_scale p t fh

/-- The per-edge scalar force `F = L0 - L; F[F < 0] = 0` (lines 604-605). -/
noncomputable def force_scalar (p : List RVec) (t : List (List ℕ)) (fh : RVec → ℝ)
    (L0mult : ℝ) (e : ℕ × ℕ) : ℝ :=
  let F := target_length p t fh L0mult e - floored_length p e
  if F < 0 then 0 else F

/-- The per-edge force vector `Fvec = F[:, None] / L[:, None] * barvec` (lines
606-608), whose denominator is the floored length. -/
noncomputable def force_vec (p : List RVec) (t : List (List ℕ)) (fh : RVec → ℝ)
    (L0mult : ℝ) (e : ℕ × ℕ) : RVec :=
  rvscale (force_scalar p t fh L0mult e / floored_length p e)
    (rvsub (p.getD e.1 []) (p.getD e.2 []))

theorem machineEps_pos : 0 < machineEps := by
  unfold machineEps
  positivity

theorem floored_length_pos (p : List RVec) (e : ℕ × ℕ) : 0 < floored_length p e := by
  unfold floored_length
  by_cases h : bar_length p e = 0
  · rw [if_pos h]
    exact machineEps_pos
  · rw [if_neg h]
    exact lt_of_le_of_ne (Real.sqrt_nonneg _) (Ne.symm h)

/-- C2: for every unique undirected edge of the topology, the scalar force equals
`max(L0 - L, 0)` where `L0 = h_edge * L0mult * (Σ L^d / Σ h_edge^d)^(1/d)` and `L`
is the edge length after the zero-length floor; the force is never negative, an
exactly-zero-length edge has its length floored to machine epsilon, and the length
dividing the force-direction computation is strictly positive, so it never divides
by zero. -/
theorem C2_force_one_sided_spring (p : List RVec) (t : List (List ℕ)) (fh : RVec → ℝ)
    (L0mult : ℝ) (e : ℕ × ℕ) (he : e ∈ get_edges t) :
    force_scalar p t fh L0mult e =
        max (target_length p t fh L0mult e - floored_length p e) 0 ∧
      0 ≤ force_scalar p t fh L0mult e ∧
      (bar_length p e = 0 → floored_length p e = machineEps) ∧
      0 < floored_length p e := by
  refine ⟨?_, ?_, ?_, floored_length_pos p e⟩
  · simp only [force_scalar]
    rcases lt_or_le (target_length p t fh L0mult e - floored_length p e) 0 with hF | hF
    · rw [if_pos hF, max_eq_right (le_of_lt hF)]
    · rw [if_neg (not_lt.mpr hF), max_eq_left hF]
  · simp only [force_scalar]
    rcases lt_or_le (target_length p t fh L0mult e - floored_length p e) 0 with hF | hF
    · rw [if_pos hF]
    · rw [if_neg (not_lt.mpr hF)]
      exact hF
  · intro h0
    unfold floored_length
    rw [if_pos h0]

/-- C2 witness: the edge `(0, 1)` of the single reference triangle. -/
theorem C2_force_one_sided_spring_witness :
    force_scalar [[0, 0], [1, 0], [0, 1]] [[0, 1, 2]] (fun _ => 1) 1 (0, 1) =
        max (target_length [[0, 0], [1, 0], [0, 1]] [[0, 1, 2]] (fun _ => 1) 1 (0, 1) -
          floored_length [[0, 0], [1, 0], [0, 1]] (0, 1)) 0 ∧
      0 ≤ force_scalar [[0, 0], [1, 0], [0, 1]] [[0, 1, 2]] (fun _ => 1) 1 (0, 1) ∧
      (bar_length [[0, 0], [1, 0], [0, 1]] (0, 1) = 0 →
        floored_length [[0, 0], [1, 0], [0, 1]] (0, 1) = machineEps) ∧
      0 < floored_length [[0, 0], [1, 0], [0, 1]] (0, 1) :=
  C2_force_one_sided_spring [[0, 0], [1, 0], [0, 1]] [[0, 1, 2]] (fun _ => 1) 1 (0, 1)
    (by decide)

/-- The coordinate rows of one cell, `p[t[e]]`. -/
def cell_coords (p : List Vec) (cell : List ℕ) : List Vec :=
  cell.map (fun i => p.getD i [])

/-- The flattened column of `geometry.calc_dihedral_angles(p, t)`: the external
collaborator `dh` maps one cell's vertex coordinates to its six dihedral angles
and the code consumes the per-cell blocks stacked in cell order (line 223). -/
def calc_dihedral_angles (dh : List Vec → List ℚ) (p : List Vec)
    (t : List (List ℕ)) : List ℚ :=
  (t.map (fun c => dh (cell_coords p c))).flatten

/-- Source `np.argwhere((dh_angles[:, 0] < min_dh_bound) | (dh_angles[:, 0] > max_dh_bound))`
(lines 224-226): the positions of the out-of-bounds angles. -/
def out_of_bounds_idx (angles : List ℚ) (lo hi : ℚ) : List ℕ :=
  (List.range angles.length).filter
    (fun i => decide (angles.getD i 0 < lo) || decide (hi < angles.getD i 0))

/-- The flagged cell numbers `np.unique(np.floor(out_of_bounds / 6))` (lines 227-228). -/
def ele_nums (dh : List Vec → List ℚ) (lo hi : ℚ) (p : List Vec)
    (t : List (List ℕ)) : List ℕ :=
  ((out_of_bounds_idx (calc_dihedral_angles dh p t) lo hi).map (fun i => i / 6)).dedup

/-- The vertex indices referenced by at least one cell, in increasing order. -/
def used_vertices (p : List Vec) (t : List (List ℕ)) : List ℕ :=
  (List.range p.length).filter (fun i => t.any (fun c => c.contains i))

/-- Modelled from the spec: `geometry.fix_mesh(p, t, delete_unused=True)` — the
"unused/duplicate-vertex cleanup" of the geometry collaborator — drops the vertices
referenced by no cell and renumbers the connectivity accordingly, preserving every
cell's vertex coordinates. -/
def fix_mesh (p : List Vec) (t : List (List ℕ)) : List Vec × List (List ℕ) :=
  let used := used_vertices p t
  (used.map (fun i => p.getD i []),
   t.map (fun c => c.map (fun i => used.indexOf i)))

/-- The sliver perturbation (lines 238-265): `move = t[ele_nums, 0]`, the
circumsphere-radius gradient of each flagged cell is normalised
(`perturb /= (sum |perturb|^2) ** (1/2)`, the square root being the external numpy
primitive `sqrtQ`; numpy's infinite-gradient replacement has no rational
counterpart since `grad` is total here) and `p[move] += push * h0 * perturb`
buffers the updates against the pre-update `p`. -/
def perturb_slivers (grad : List Vec → Vec) (sqrtQ : ℚ → ℚ) (push h0 : ℚ)
    (p : List Vec) (t : List (List ℕ)) (ele : List ℕ) : List Vec :=
  let updates := ele.map (fun en =>
    let pv := grad (cell_coords p (t.getD en []))
    ((t.getD en []).getD 0 0,
     vscale (push * h0) (vscale (1 / sqrtQ ((pv.map (fun a => a ^ 2)).sum)) pv)))
  updates.foldl (fun q mv => q.set mv.1 (vadd (p.getD mv.1 []) mv.2)) p

/-- Source `_termination(p, t, opts, comm, sliver=True)` on the coordinator rank
(lines 568-579): the full linter when `perform_checks` is set, otherwise the
unused-vertex cleanup. -/
def termination_sliver (linter : List Vec → List (List ℕ) → List Vec × List (List ℕ))
    (performChecks : Bool) (p : List Vec) (t : List (List ℕ)) :
    List Vec × List (List ℕ) :=
  if performChecks then linter p t else fix_mesh p t

/-- Result of one round of the sliver-removal loop. -/
inductive SliverStep where
  | earlyExit (p : List Vec) (t : List (List ℕ))
  | finished (p : List Vec) (t : List (List ℕ))
  | next (p : List Vec) (t : List (List ℕ))

/-- One round of the `sliver_removal` loop body (lines 199-284), from the point
where the topology `(p, t)` has been re-extracted from the oracle: trim exterior
cells; when this is not the final round, flag the slivers and either return the
cleaned mesh immediately (zero flagged slivers — the only data-driven exit) or
perturb the first vertex of each flagged cell; project outside points back to the
boundary; on the final round run the termination pass instead.  Externals taken as
parameters: `dh` (six dihedral angles of one cell), `grad` (circumsphere-radius
gradient), `sqrtQ` (numpy square root), `linter`. -/
def sliver_iteration (dh : List Vec → List ℚ) (grad : List Vec → Vec)
    (sqrtQ : ℚ → ℚ) (linter : List Vec → List (List ℕ) → List Vec × List (List ℕ))
    (performChecks : Bool) (fd : Vec → ℚ) (geps deps lo hi h0 push : ℚ)
    (max_iter : ℤ) (count : ℕ) (p : List Vec) (t : List (List ℕ)) : SliverStep :=
  let t := remove_triangles_outside p t fd geps
  if (count : ℤ) ≠ max_iter - 1 then
    let ele := ele_nums dh lo hi p t
    if ele.length = 0 then
      let pt := fix_mesh p t
      SliverStep.earlyExit pt.1 pt.2
    else
      let p1 := perturb_slivers grad sqrtQ push h0 p t ele
      let p2 := project_points_back_newton p1 fd deps
      SliverStep.next p2 t
  else
    let p1 := project_points_back_newton p fd deps
    let pt := termination_sliver linter performChecks p1 t
    SliverStep.finished pt.1 pt.2

/-- All angles of a block lie inside the dihedral bounds. -/
def within_bounds (angles : List ℚ) (lo hi : ℚ) : Prop :=
  ∀ a ∈ angles, lo ≤ a ∧ a ≤ hi

theorem angles_within_of_no_oob (angles : List ℚ) (lo hi : ℚ)
    (h : out_of_bounds_idx angles lo hi = []) :
    ∀ a ∈ angles, lo ≤ a ∧ a ≤ hi := by
  intro a ha
  rcases List.mem_iff_getElem.mp ha with ⟨i, hi, hgi⟩
  have hmemr : i ∈ List.range angles.length := List.mem_range.mpr hi
  have hfil := List.filter_eq_nil_iff.mp h i hmemr
  have hgd : angles.getD i 0 = a := by
    rw [List.getD_eq_getElem?_getD, List.getElem?_eq_getElem hi]
    exact hgi
  rw [hgd] at hfil
  simp only [Bool.or_eq_true, decide_eq_true_eq, not_or, not_lt] at hfil
  exact ⟨hfil.1, hfil.2⟩

theorem oob_nil_of_ele_nums_nil (dh : List Vec → List ℚ) (lo hi : ℚ) (p : List Vec)
    (t : List (List ℕ)) (h : ele_nums dh lo hi p t = []) :
    out_of_bounds_idx (calc_dihedral_angles dh p t) lo hi = [] := by
  unfold ele_nums at h
  exact List.map_eq_nil_iff.mp ((List.dedup_eq_nil _).mp h)

theorem mem_calc_dihedral_angles (dh : List Vec → List ℚ) (p : List Vec)
    (t : List (List ℕ)) (c : List ℕ) (hc : c ∈ t) (a : ℚ)
    (ha : a ∈ dh (cell_coords p c)) : a ∈ calc_dihedral_angles dh p t := by
  unfold calc_dihedral_angles
  exact List.mem_flatten.mpr ⟨dh (cell_coords p c), List.mem_map_of_mem _ hc, ha⟩

theorem mem_used_vertices (p : List Vec) (t : List (List ℕ)) (c : List ℕ)
    (hc : c ∈ t) (i : ℕ) (hi : i ∈ c) (hlt : i < p.length) :
    i ∈ used_vertices p t := by
  unfold used_vertices
  rw [List.mem_filter]
  refine ⟨List.mem_range.mpr hlt, ?_⟩
  rw [List.any_eq_true]
  exact ⟨c, hc, by simpa using hi⟩

theorem fix_mesh_point_coord (p : List Vec) (t : List (List ℕ)) (i : ℕ)
    (hmem : i ∈ used_vertices p t) :
    ((used_vertices p t).map (fun j => p.getD j [])).getD
        ((used_vertices p t).indexOf i) [] = p.getD i [] := by
  have hlt : (used_vertices p t).indexOf i < (used_vertices p t).length :=
    List.indexOf_lt_length.mpr hmem
  rw [List.getD_eq_getElem?_getD, List.getElem?_map, List.getElem?_eq_getElem hlt,
    Option.map_some', Option.getD_some, List.getElem_indexOf hlt]

theorem fix_mesh_cell_coords (p : List Vec) (t : List (List ℕ)) (c : List ℕ)
    (hc : c ∈ t) (hv : ∀ i ∈ c, i < p.length) :
    cell_coords (fix_mesh p t).1 (c.map (fun i => (used_vertices p t).indexOf i)) =
      cell_coords p c := by
  unfold cell_coords
  rw [List.map_map]
  apply List.map_congr_left
  intro i hi
  exact fix_mesh_point_coord p t i (mem_used_vertices p t c hc i hi (hv i hi))

/-- C5: whenever a sliver-removal round that is not the final one observes zero
flagged slivers — no cell of the trimmed topology has any of its dihedral angles
below `min_dh_bound` or above `max_dh_bound` — the loop returns the cleaned mesh
immediately, every cell of the returned mesh satisfies the dihedral-angle bounds,
and this zero-sliver test is the only way a round can exit early: any round that
returns before the final one did observe a zero flagged-sliver count. -/
theorem C5_zero_slivers_early_exit (dh : List Vec → List ℚ) (grad : List Vec → Vec)
    (sqrtQ : ℚ → ℚ) (linter : List Vec → List (List ℕ) → List Vec × List (List ℕ))
    (performChecks : Bool) (fd : Vec → ℚ) (geps deps lo hi h0 push : ℚ)
    (max_iter : ℤ) (count : ℕ) (p : List Vec) (t : List (List ℕ))
    (hcount : (count : ℤ) ≠ max_iter - 1)
    (hzero : ele_nums dh lo hi p (remove_triangles_outside p t fd geps) = [])
    (hvalid : ∀ c ∈ t, ∀ i ∈ c, i < p.length) :
    sliver_iteration dh grad sqrtQ linter performChecks fd geps deps lo hi h0 push
        max_iter count p t =
      SliverStep.earlyExit (fix_mesh p (remove_triangles_outside p t fd geps)).1
        (fix_mesh p (remove_triangles_outside p t fd geps)).2 ∧
    (∀ c2 ∈ (fix_mesh p (remove_triangles_outside p t fd geps)).2,
      within_bounds
        (dh (cell_coords (fix_mesh p (remove_triangles_outside p t fd geps)).1 c2))
        lo hi) ∧
    (∀ (count2 : ℕ) (p2 : List Vec) (t2 : List (List ℕ)) (q : List Vec)
        (s : List (List ℕ)),
      sliver_iteration dh grad sqrtQ linter performChecks fd geps deps lo hi h0 push
          max_iter count2 p2 t2 = SliverStep.earlyExit q s →
        (count2 : ℤ) ≠ max_iter - 1 ∧
          ele_nums dh lo hi p2 (remove_triangles_outside p2 t2 fd geps) = []) := by
  refine ⟨?_, ?_, ?_⟩
  · simp only [sliver_iteration]
    rw [if_pos hcount, hzero]
    rfl
  · intro c2 hc2
    have hc2m : c2 ∈ (remove_triangles_outside p t fd geps).map
        (fun c => c.map
          (fun i => (used_vertices p (remove_triangles_outside p t fd geps)).indexOf i)) :=
      hc2
    rcases List.mem_map.mp hc2m with ⟨c, hcmem, hceq⟩
    have hct : c ∈ t :=
      ((mem_remove_triangles_outside p t fd geps c).mp hcmem).1
    have hvc : ∀ i ∈ c, i < p.length := hvalid c hct
    rw [← hceq,
      fix_mesh_cell_coords p (remove_triangles_outside p t fd geps) c hcmem hvc]
    intro a ha
    exact angles_within_of_no_oob _ lo hi
      (oob_nil_of_ele_nums_nil dh lo hi p (remove_triangles_outside p t fd geps) hzero)
      a (mem_calc_dihedral_angles dh p (remove_triangles_outside p t fd geps) c hcmem a ha)
  · intro count2 p2 t2 q s h
    by_cases hc2 : (count2 : ℤ) ≠ max_iter - 1
    · refine ⟨hc2, ?_⟩
      by_cases hz : ele_nums dh lo hi p2 (remove_triangles_outside p2 t2 fd geps) = []
      · exact hz
      · exfalso
        have hlen :
            ¬ (ele_nums dh lo hi p2 (remove_triangles_outside p2 t2 fd geps)).length = 0 :=
          fun hl => hz (List.length_eq_zero.mp hl)
        simp only [sliver_iteration] at h
        rw [if_pos hc2, if_neg hlen] at h
        cases h
    · exfalso
      simp only [sliver_iteration] at h
      rw [if_neg hc2] at h
      cases h

/-- C5 witness: a single interior reference tetrahedron whose (constant) dihedral
angles lie inside the bounds is returned, cleaned, on the first round. -/
theorem C5_zero_slivers_early_exit_witness :
    ((0 : ℤ) ≠ 5 - 1) ∧
      sliver_iteration (fun _ => [1, 1, 1, 1, 1, 1]) (fun _ => [1, 1, 1]) (fun x => x)
          (fun a b => (a, b)) false (fun _ => -1) 0 1 0 2 1 1 5 0
          [[0, 0, 0], [1, 0, 0], [0, 1, 0], [0, 0, 1]] [[0, 1, 2, 3]] =
        SliverStep.earlyExit
          (fix_mesh [[0, 0, 0], [1, 0, 0], [0, 1, 0], [0, 0, 1]]
            (remove_triangles_outside [[0, 0, 0], [1, 0, 0], [0, 1, 0], [0, 0, 1]]
              [[0, 1, 2, 3]] (fun _ => -1) 0)).1
          (fix_mesh [[0, 0, 0], [1, 0, 0], [0, 1, 0], [0, 0, 1]]
            (remove_triangles_outside [[0, 0, 0], [1, 0, 0], [0, 1, 0], [0, 0, 1]]
              [[0, 1, 2, 3]] (fun _ => -1) 0)).2 :=
  ⟨by decide,
    (C5_zero_slivers_early_exit (fun _ => [1, 1, 1, 1, 1, 1]) (fun _ => [1, 1, 1])
      (fun x => x) (fun a b => (a, b)) false (fun _ => -1) 0 1 0 2 1 1 5 0
      [[0, 0, 0], [1, 0, 0], [0, 1, 0], [0, 0, 1]] [[0, 1, 2, 3]]
      (by decide) (by decide) (by decide)).1⟩

end SeismicMesh
